import Mathlib

/-!
Verification of the Recipe-Populator extraction-and-normalization pipeline.

The Python sources (scrape_individual_recipe.py, scrape_recipes.py,
update_csv_images.py, update_pescatarian.py) are shallowly embedded below.
Record fields are Lean `String`s; all character-level work is done on
`String.data` with structural recursions, because the claims are settled by
evaluating the embedding on concrete inputs.

Modeling notes:
* Python `str.strip`, `str.lower` and `\s` in regexes are Unicode-aware; the
  embedding uses ASCII versions (`pyStrip`, `pyLower`, `isPyWs`), which agree
  with Python on all data this pipeline handles.
* `urllib.parse` helpers (urlparse, parse_qs, urlencode with quote_plus,
  unquote_plus) are embedded from their documented behaviour as exercised by
  this code: percent-decoding decodes UTF-8 byte runs (one U+FFFD per invalid
  byte), and the IPv6-bracket ValueError of urlsplit is not modeled.
* `sorted(set(xs))` is modeled as `List.insertionSort` over `List.dedup`:
  the unique ascending enumeration of the distinct elements, which is what
  the Python expression denotes regardless of set iteration order.
* Page fetching (requests/playwright) and BeautifulSoup traversal are
  external collaborators: a parsed page enters the model as the text each
  selector yields (`""` for an absent element, matching the code's treatment
  of missing elements), and JSON-LD blocks enter as `LdObject` values whose
  attribute shapes mirror the `isinstance` branches the code distinguishes
  (lists of strings, dicts with a `url` key, plain strings).
-/

set_option linter.unusedVariables false

namespace RecipePopulator

/-! ### String primitives (List Char level) -/

/-- Extensionality for `String` via its character list. -/
theorem strExt {a b : String} (h : a.data = b.data) : a = b := by
  cases a
  cases b
  exact congrArg String.mk h

/-- Character data of an appended string. -/
theorem strData_append (a b : String) : (a ++ b).data = a.data ++ b.data := by
  cases a
  cases b
  rfl

/-- Boolean prefix test on character lists (models `str.startswith`). -/
def leadsWith : List Char → List Char → Bool
  | [], _ => true
  | _ :: _, [] => false
  | a :: as, b :: bs => a == b && leadsWith as bs

theorem leadsWith_append (p l m : List Char) (h : leadsWith p l = true) :
    leadsWith p (l ++ m) = true := by
  induction p generalizing l with
  | nil => simp [leadsWith]
  | cons a as ih =>
    cases l with
    | nil => simp [leadsWith] at h
    | cons b bs =>
      simp only [leadsWith, Bool.and_eq_true, beq_iff_eq] at h
      simp only [List.cons_append, leadsWith, Bool.and_eq_true, beq_iff_eq]
      exact ⟨h.1, ih bs h.2⟩

/-- Models Python `s.startswith(p)`. -/
def strStartsWith (s p : String) : Bool := leadsWith p.data s.data

/-- Boolean substring test on character lists (models Python `sub in s`). -/
def hasSegment (needle : List Char) : List Char → Bool
  | [] => needle.isEmpty
  | c :: rest => leadsWith needle (c :: rest) || hasSegment needle rest

/-- Models Python `sub in s`. -/
def strContains (s sub : String) : Bool := hasSegment sub.data s.data

/-- Consume `n` from the head of a list if it is a prefix, returning the rest. -/
def chopLead : List Char → List Char → Option (List Char)
  | [], rest => some rest
  | _ :: _, [] => none
  | a :: as, b :: bs => if a = b then chopLead as bs else none

theorem chopLead_length :
    ∀ (n cs rem : List Char), chopLead n cs = some rem → rem.length + n.length = cs.length := by
  intro n
  induction n with
  | nil =>
    intro cs rem h
    simp [chopLead] at h
    simp [h]
  | cons a as ih =>
    intro cs rem h
    cases cs with
    | nil => simp [chopLead] at h
    | cons b bs =>
      simp only [chopLead] at h
      by_cases hab : a = b
      · simp only [hab, if_pos rfl] at h
        have := ih bs rem h
        simp [List.length_cons]
        omega
      · simp [hab] at h

theorem length_dropWhile_le (p : Char → Bool) (l : List Char) :
    (l.dropWhile p).length ≤ l.length := by
  induction l with
  | nil => simp
  | cons c rest ih =>
    by_cases h : p c
    · simp only [List.dropWhile, h]
      exact Nat.le_succ_of_le ih
    · simp only [List.dropWhile, h]
      simp

/-- ASCII whitespace class, modeling the characters matched by `\s` and
stripped by `str.strip` on the ASCII data this pipeline handles. -/
def isPyWs (c : Char) : Bool :=
  c == ' ' || c == '\t' || c == '\n' || c == '\r' || c == '\x0b' || c == '\x0c'

/-- Models Python `str.strip()`. -/
def pyStrip (cs : List Char) : List Char :=
  ((cs.dropWhile isPyWs).reverse.dropWhile isPyWs).reverse

/-- Models Python `str.strip()` on `String`. -/
def strStrip (s : String) : String := String.mk (pyStrip s.data)

/-- Models Python `str.lower()` (ASCII). -/
def strLower (s : String) : String := String.mk (s.data.map Char.toLower)

/-- Split a character list at every occurrence of `sep`, keeping empty
pieces, with an accumulator for the current piece (models `str.split(sep)`). -/
def splitAllAux (sep : Char) : List Char → List Char → List (List Char)
  | [], acc => [acc.reverse]
  | c :: rest, acc =>
    if c == sep then acc.reverse :: splitAllAux sep rest []
    else splitAllAux sep rest (c :: acc)

/-- Models Python `str.split(sep)` for a one-character separator. -/
def splitAll (sep : Char) (cs : List Char) : List (List Char) := splitAllAux sep cs []

/-- Models Python `s.split(sep, 1)` / `str.find` based one-shot splits:
the part before the first `sep` and the part after it, if `sep` occurs. -/
def splitFirst (sep : Char) (cs : List Char) : Option (List Char × List Char) :=
  match cs.dropWhile (fun c => c != sep) with
  | [] => none
  | _ :: rest => some (cs.takeWhile (fun c => c != sep), rest)

/-- Code-point lexicographic order on character lists (Python string `<=`). -/
def lexLe : List Char → List Char → Bool
  | [], _ => true
  | _ :: _, [] => false
  | a :: as, b :: bs => if a = b then lexLe as bs else decide (a < b)

/-- Models Python string comparison `a <= b`. -/
def strLe (a b : String) : Bool := lexLe a.data b.data

theorem lexLe_total (a b : List Char) : lexLe a b = true ∨ lexLe b a = true := by
  induction a generalizing b with
  | nil => left; simp [lexLe]
  | cons x xs ih =>
    cases b with
    | nil => right; simp [lexLe]
    | cons y ys =>
      by_cases hxy : x = y
      · subst hxy
        simp only [lexLe, if_pos rfl]
        exact ih ys
      · rcases lt_trichotomy x y with hlt | heq | hgt
        · left; simp [lexLe, hxy, hlt]
        · exact absurd heq hxy
        · right
          have hyx : ¬ y = x := fun h => hxy h.symm
          simp [lexLe, hyx, hgt]

theorem lexLe_trans (a b c : List Char) (hab : lexLe a b = true) (hbc : lexLe b c = true) :
    lexLe a c = true := by
  induction a generalizing b c with
  | nil => simp [lexLe]
  | cons x xs ih =>
    cases b with
    | nil => simp [lexLe] at hab
    | cons y ys =>
      cases c with
      | nil => simp [lexLe] at hbc
      | cons z zs =>
        simp only [lexLe] at hab hbc ⊢
        by_cases hxy : x = y
        · subst hxy
          simp only [if_pos rfl] at hab
          by_cases hyz : x = z
          · subst hyz
            simp only [if_pos rfl] at hbc ⊢
            exact ih ys zs hab hbc
          · simp only [hyz, if_neg hyz] at hbc ⊢
            exact hbc
        · simp only [if_neg hxy, decide_eq_true_eq] at hab
          by_cases hyz : y = z
          · subst hyz
            simp [if_neg hxy, hab]
          · simp only [if_neg hyz, decide_eq_true_eq] at hbc
            have hxz : x < z := lt_trans hab hbc
            have : ¬ x = z := ne_of_lt hxz
            simp [if_neg this, hxz]

/-- The sort relation used to model Python `sorted` on strings. -/
def pyLeRel (a b : String) : Prop := strLe a b = true

instance : DecidableRel pyLeRel := fun a b => by
  unfold pyLeRel
  infer_instance

instance : IsTotal String pyLeRel :=
  ⟨fun a b => lexLe_total a.data b.data⟩

instance : IsTrans String pyLeRel :=
  ⟨fun a b c hab hbc => lexLe_trans a.data b.data c.data hab hbc⟩

/-- Models Python `sorted(set(xs))` for strings: the ascending enumeration of
the distinct elements. -/
def sorted_set (l : List String) : List String :=
  List.insertionSort pyLeRel l.dedup

/-! ### The crop-segment regular expression

Both scrapers run `re.sub(r'/(_[0-9]+x[0-9]+_crop_[^/]+/)', '/', url)`.
`matchCropAt` attempts one match of the pattern at the head of the list and
returns the remainder after the consumed text; `cropSub` is `re.sub`'s
leftmost, non-overlapping scan, emitting the replacement `'/'` for each
match. -/

/-- Consume one specific character. -/
def expectChar (c : Char) : List Char → Option (List Char)
  | x :: rest => if x = c then some rest else none
  | [] => none

/-- Consume `[0-9]+`: at least one digit, then the maximal digit run. -/
def dropDigits1 : List Char → Option (List Char)
  | c :: rest => if c.isDigit then some (rest.dropWhile Char.isDigit) else none
  | [] => none

/-- Consume `[^/]+`: at least one non-slash, then the maximal non-slash run. -/
def dropNonSlash1 : List Char → Option (List Char)
  | c :: rest => if c ≠ '/' then some (rest.dropWhile (fun x => x != '/')) else none
  | [] => none

def matchCropAt (cs : List Char) : Option (List Char) :=
  (expectChar '/' cs).bind fun r1 =>
  (expectChar '_' r1).bind fun r2 =>
  (dropDigits1 r2).bind fun r3 =>
  (expectChar 'x' r3).bind fun r4 =>
  (dropDigits1 r4).bind fun r5 =>
  (chopLead "_crop_".data r5).bind fun r6 =>
  (dropNonSlash1 r6).bind fun r7 =>
  expectChar '/' r7

theorem expectChar_length (c : Char) (cs rem : List Char) (h : expectChar c cs = some rem) :
    rem.length < cs.length := by
  cases cs with
  | nil => simp [expectChar] at h
  | cons x rest =>
    simp only [expectChar] at h
    by_cases hx : x = c
    · simp only [if_pos hx, Option.some.injEq] at h
      subst h
      simp
    · simp [hx] at h

theorem dropDigits1_length (cs rem : List Char) (h : dropDigits1 cs = some rem) :
    rem.length < cs.length := by
  cases cs with
  | nil => simp [dropDigits1] at h
  | cons x rest =>
    simp only [dropDigits1] at h
    by_cases hx : x.isDigit
    · simp only [if_pos hx, Option.some.injEq] at h
      subst h
      have := length_dropWhile_le Char.isDigit rest
      simp only [List.length_cons]
      omega
    · simp [hx] at h

theorem dropNonSlash1_length (cs rem : List Char) (h : dropNonSlash1 cs = some rem) :
    rem.length < cs.length := by
  cases cs with
  | nil => simp [dropNonSlash1] at h
  | cons x rest =>
    simp only [dropNonSlash1] at h
    by_cases hx : x ≠ '/'
    · simp only [if_pos hx, Option.some.injEq] at h
      subst h
      have := length_dropWhile_le (fun x => x != '/') rest
      simp only [List.length_cons]
      omega
    · simp [hx] at h

theorem chopLead_length_lt (cs rem : List Char) (h : chopLead "_crop_".data cs = some rem) :
    rem.length < cs.length := by
  have := chopLead_length "_crop_".data cs rem h
  simp only [List.length_cons] at this
  omega

theorem matchCropAt_length (cs rem : List Char) (h : matchCropAt cs = some rem) :
    rem.length < cs.length := by
  simp only [matchCropAt, Option.bind_eq_some] at h
  obtain ⟨r1, h1, r2, h2, r3, h3, r4, h4, r5, h5, r6, h6, r7, h7, h8⟩ := h
  have l1 := expectChar_length _ _ _ h1
  have l2 := expectChar_length _ _ _ h2
  have l3 := dropDigits1_length _ _ h3
  have l4 := expectChar_length _ _ _ h4
  have l5 := dropDigits1_length _ _ h5
  have l6 := chopLead_length_lt _ _ h6
  have l7 := dropNonSlash1_length _ _ h7
  have l8 := expectChar_length _ _ _ h8
  omega

/-- Models `re.sub(r'/(_[0-9]+x[0-9]+_crop_[^/]+/)', '/', ...)`: a leftmost,
non-overlapping scan; each match is replaced by `'/'` and scanning resumes
after the consumed text (in particular, of two adjacent crop segments only
the first is removed per pass, exactly as `re.sub` behaves). Structural
recursion on a fuel argument; every step consumes at least one character, so
any fuel of at least the list length computes the full scan
(`cropSubFuel_adequate` below). -/
def cropSubFuel : Nat → List Char → List Char
  | 0, cs => cs
  | _ + 1, [] => []
  | fuel + 1, c :: rest =>
    match matchCropAt (c :: rest) with
    | some rem => '/' :: cropSubFuel fuel rem
    | none => c :: cropSubFuel fuel rest

def cropSub (cs : List Char) : List Char := cropSubFuel cs.length cs

theorem cropSubFuel_adequate (fuel fuel2 : Nat) (cs : List Char)
    (h : cs.length ≤ fuel) (h2 : cs.length ≤ fuel2) :
    cropSubFuel fuel cs = cropSubFuel fuel2 cs := by
  induction fuel generalizing fuel2 cs with
  | zero =>
    have : cs = [] := List.length_eq_zero.mp (Nat.le_zero.mp h)
    subst this
    cases fuel2 with
    | zero => rfl
    | succ n => rfl
  | succ fuel ih =>
    cases cs with
    | nil =>
      cases fuel2 with
      | zero => rfl
      | succ n => rfl
    | cons c rest =>
      cases fuel2 with
      | zero => simp at h2
      | succ fuel2 =>
        simp only [cropSubFuel]
        match hm : matchCropAt (c :: rest) with
        | some rem =>
          have hlt := matchCropAt_length _ _ hm
          simp only [List.length_cons] at h h2 hlt
          have := ih fuel2 rem (by omega) (by omega)
          simp [this]
        | none =>
          simp only [List.length_cons] at h h2
          have := ih fuel2 rest (by omega) (by omega)
          simp [this]

/-- Shared by both scrapers:
`strip_cropping_from_url` of scrape_individual_recipe.py / scrape_recipes.py.
Returns the url unchanged when it is empty (falsy). -/
def strip_cropping_from_url (url : String) : String :=
  if url = "" then url else String.mk (cropSub url.data)

/-- Models Python `str.replace(needle, repl)` for a non-empty needle
(leftmost, non-overlapping). Fuel-structured like `cropSubFuel`; a non-empty
needle consumes at least one character per replacement, so fuel equal to the
list length computes the full scan. -/
def replaceSegFuel (needle repl : List Char) : Nat → List Char → List Char
  | 0, cs => cs
  | _ + 1, [] => []
  | fuel + 1, c :: rest =>
    match chopLead needle (c :: rest) with
    | some rem => repl ++ replaceSegFuel needle repl fuel rem
    | none => c :: replaceSegFuel needle repl fuel rest

def replaceSeg (needle repl : List Char) (cs : List Char) : List Char :=
  if needle = [] then cs else replaceSegFuel needle repl cs.length cs

/-! ### urllib.parse model

scrape_individual_recipe.py and update_csv_images.py use
`urlparse`, `parse_qs`, `urlencode(..., doseq=True)` (whose default
`quote_via` is `quote_plus`) and `parsed._replace(query=...).geturl()`.
The model below reproduces those functions' behaviour. -/

namespace UrlLib

def hexUpper (n : Nat) : Char :=
  if n < 10 then Char.ofNat (48 + n) else Char.ofNat (55 + n)

def hexVal (c : Char) : Option Nat :=
  if '0' ≤ c ∧ c ≤ '9' then some (c.toNat - 48)
  else if 'A' ≤ c ∧ c ≤ 'F' then some (c.toNat - 55)
  else if 'a' ≤ c ∧ c ≤ 'f' then some (c.toNat - 87)
  else none

/-- UTF-8 encoding of one code point (Python strs are encoded as UTF-8 by
`quote`). -/
def utf8Bytes (c : Char) : List Nat :=
  let n := c.toNat
  if n < 0x80 then [n]
  else if n < 0x800 then [0xC0 + n / 0x40, 0x80 + n % 0x40]
  else if n < 0x10000 then
    [0xE0 + n / 0x1000, 0x80 + (n / 0x40) % 0x40, 0x80 + n % 0x40]
  else
    [0xF0 + n / 0x40000, 0x80 + (n / 0x1000) % 0x40, 0x80 + (n / 0x40) % 0x40, 0x80 + n % 0x40]

/-- Characters `quote` never escapes: ASCII letters, digits, and `_.-~`. -/
def alwaysSafe (c : Char) : Bool :=
  c.isAlpha || c.isDigit || c == '_' || c == '.' || c == '-' || c == '~'

/-- Models `urllib.parse.quote_plus(s, safe='')` (the encoder `urlencode`
uses): safe characters kept, space becomes `+`, everything else becomes
percent-escaped UTF-8 bytes with uppercase hex. -/
def quotePlusList (cs : List Char) : List Char :=
  cs.foldr
    (fun c acc =>
      (if alwaysSafe c then [c]
       else if c == ' ' then ['+']
       else (utf8Bytes c).foldr
         (fun b a2 => '%' :: hexUpper (b / 16) :: hexUpper (b % 16) :: a2) []) ++ acc)
    []

def quote_plus (s : String) : String := String.mk (quotePlusList s.data)

/-- Tokenizer for `unquote_plus`: a `+` becomes a space, `%XY` with two hex
digits becomes a raw byte, anything else passes through. A `%` not followed
by two hex digits is kept literally, as in Python. -/
def pctTokens : List Char → List (Char ⊕ Nat)
  | [] => []
  | '%' :: a :: b :: rest =>
    match hexVal a, hexVal b with
    | some x, some y => Sum.inr (16 * x + y) :: pctTokens rest
    | _, _ => Sum.inl '%' :: pctTokens (a :: b :: rest)
  | '+' :: rest => Sum.inl ' ' :: pctTokens rest
  | c :: rest => Sum.inl c :: pctTokens rest

def isCont (b : Nat) : Bool := 0x80 ≤ b && b ≤ 0xBF

/-- Decode a run of raw bytes as UTF-8, one U+FFFD per invalid byte
(approximating `errors='replace'`). Fuel-structured; every step consumes at
least one byte, so fuel equal to the byte count computes the full decode. -/
def utf8DecodeFuel : Nat → List Nat → List Char
  | 0, _ => []
  | _ + 1, [] => []
  | fuel + 1, b :: rest =>
    if b < 0x80 then Char.ofNat b :: utf8DecodeFuel fuel rest
    else if 0xC2 ≤ b ∧ b ≤ 0xDF then
      match rest with
      | b2 :: rest2 =>
        if isCont b2 then
          Char.ofNat ((b - 0xC0) * 0x40 + (b2 - 0x80)) :: utf8DecodeFuel fuel rest2
        else Char.ofNat 0xFFFD :: utf8DecodeFuel fuel rest
      | [] => [Char.ofNat 0xFFFD]
    else if 0xE0 ≤ b ∧ b ≤ 0xEF then
      match rest with
      | b2 :: b3 :: rest3 =>
        if isCont b2 ∧ isCont b3 then
          Char.ofNat ((b - 0xE0) * 0x1000 + (b2 - 0x80) * 0x40 + (b3 - 0x80))
            :: utf8DecodeFuel fuel rest3
        else Char.ofNat 0xFFFD :: utf8DecodeFuel fuel rest
      | _ => Char.ofNat 0xFFFD :: utf8DecodeFuel fuel rest
    else if 0xF0 ≤ b ∧ b ≤ 0xF4 then
      match rest with
      | b2 :: b3 :: b4 :: rest4 =>
        if isCont b2 ∧ isCont b3 ∧ isCont b4 then
          Char.ofNat ((b - 0xF0) * 0x40000 + (b2 - 0x80) * 0x1000 + (b3 - 0x80) * 0x40
              + (b4 - 0x80)) :: utf8DecodeFuel fuel rest4
        else Char.ofNat 0xFFFD :: utf8DecodeFuel fuel rest
      | _ => Char.ofNat 0xFFFD :: utf8DecodeFuel fuel rest
    else Char.ofNat 0xFFFD :: utf8DecodeFuel fuel rest

def utf8Decode (bs : List Nat) : List Char := utf8DecodeFuel bs.length bs

/-- Fold the token stream back into characters, decoding each maximal run of
raw bytes as UTF-8. -/
def tokensDecode (acc : List Nat) : List (Char ⊕ Nat) → List Char
  | [] => utf8Decode acc.reverse
  | Sum.inr b :: rest => tokensDecode (b :: acc) rest
  | Sum.inl c :: rest => utf8Decode acc.reverse ++ c :: tokensDecode [] rest

/-- Models `urllib.parse.unquote_plus`. -/
def unquotePlusList (cs : List Char) : List Char := tokensDecode [] (pctTokens cs)

/-- Result shape of `urlparse` (netloc and the path/params split included). -/
structure UrlParts where
  scheme : List Char
  netloc : List Char
  path : List Char
  params : List Char
  query : List Char
  fragment : List Char

def schemeChar (c : Char) : Bool :=
  c.isAlpha || c.isDigit || c == '+' || c == '-' || c == '.'

/-- Prefix of `cs` up to (and including) the last `'/'`. -/
def lastSlashPre (cs : List Char) : List Char :=
  (cs.reverse.dropWhile (fun c => c != '/')).reverse

/-- Suffix of `cs` after the last `'/'`. -/
def lastSlashSuf (cs : List Char) : List Char :=
  (cs.reverse.takeWhile (fun c => c != '/')).reverse

/-- Models `urllib.parse._splitparams`: split `;params` off the last path
segment (off the whole path when it contains no `'/'`). -/
def splitparams (url : List Char) : List Char × List Char :=
  if '/' ∈ url then
    match splitFirst ';' (lastSlashSuf url) with
    | some (a, b) => (lastSlashPre url ++ a, b)
    | none => (url, [])
  else
    match splitFirst ';' url with
    | some (a, b) => (a, b)
    | none => (url, [])

/-- Models `urllib.parse.urlparse` with default arguments: scheme detection
(letter first, then letters/digits/`+-.`, lowercased), `//netloc` up to the
next `/?#`, fragment split at the first `#`, query at the first `?`, and the
params split of the path. -/
def urlparse_model (input : List Char) : UrlParts :=
  let schemeSplit :=
    match splitFirst ':' input with
    | some (pre, post) =>
      if pre ≠ [] ∧ (match input with
          | c :: _ => c.isAlpha
          | [] => false) = true ∧ pre.all schemeChar then
        (pre.map Char.toLower, post)
      else ([], input)
    | none => ([], input)
  let scheme := schemeSplit.1
  let rest0 := schemeSplit.2
  let netlocSplit :=
    if rest0.take 2 = ['/', '/'] then
      ((rest0.drop 2).takeWhile (fun c => c != '/' && c != '?' && c != '#'),
       (rest0.drop 2).dropWhile (fun c => c != '/' && c != '?' && c != '#'))
    else ([], rest0)
  let netloc := netlocSplit.1
  let rest1 := netlocSplit.2
  let fragSplit :=
    match splitFirst '#' rest1 with
    | some (a, b) => (a, b)
    | none => (rest1, [])
  let rest2 := fragSplit.1
  let fragment := fragSplit.2
  let querySplit :=
    match splitFirst '?' rest2 with
    | some (a, b) => (a, b)
    | none => (rest2, [])
  let pathAndParams := querySplit.1
  let query := querySplit.2
  let pp :=
    if ';' ∈ pathAndParams then splitparams pathAndParams else (pathAndParams, [])
  { scheme := scheme, netloc := netloc, path := pp.1, params := pp.2,
    query := query, fragment := fragment }

/-- Models `urlunparse`/`geturl`: reattach params, `//netloc` (with the
path forced absolute when a netloc is present), `scheme:`, `?query`,
`#fragment`. -/
def urlunparse_model (u : UrlParts) : List Char :=
  let url0 := if u.params ≠ [] then u.path ++ ';' :: u.params else u.path
  let url1 :=
    if u.netloc ≠ [] ∨ url0.take 2 = ['/', '/'] then
      '/' :: '/' :: (u.netloc ++
        (if url0 ≠ [] ∧ url0.take 1 ≠ ['/'] then '/' :: url0 else url0))
    else url0
  let url2 := if u.scheme ≠ [] then u.scheme ++ ':' :: url1 else url1
  let url3 := if u.query ≠ [] then url2 ++ '?' :: u.query else url2
  if u.fragment ≠ [] then url3 ++ '#' :: u.fragment else url3

/-- Models `urllib.parse.parse_qsl` with default arguments: split on `&`,
skip empty fields, skip fields without `=` and fields with an empty value
(`keep_blank_values=False`), and percent-decode names and values. -/
def parse_qsl_model (qs : List Char) : List (List Char × List Char) :=
  (splitAll '&' qs).filterMap fun field =>
    if field = [] then none
    else
      match splitFirst '=' field with
      | none => none
      | some (n, v) =>
        if v = [] then none else some (unquotePlusList n, unquotePlusList v)

def dictKeyMem (d : List (List Char × List (List Char))) (k : List Char) : Bool :=
  d.any (fun e => e.1 == k)

/-- Models `urllib.parse.parse_qs`: group `parse_qsl` pairs into an
insertion-ordered dict of value lists. -/
def parse_qs_model (qs : List Char) : List (List Char × List (List Char)) :=
  (parse_qsl_model qs).foldl
    (fun d nv =>
      if dictKeyMem d nv.1 then
        d.map (fun e => if e.1 == nv.1 then (e.1, e.2 ++ [nv.2]) else e)
      else d ++ [(nv.1, [nv.2])])
    []

/-- Python dict assignment `d[k] = vs`: replace in place or append. -/
def dictSet (d : List (List Char × List (List Char)))
    (k : List Char) (vs : List (List Char)) : List (List Char × List (List Char)) :=
  if dictKeyMem d k then d.map (fun e => if e.1 == k then (k, vs) else e)
  else d ++ [(k, vs)]

/-- Models `urllib.parse.urlencode(d, doseq=True)` with the default
`quote_via=quote_plus`. -/
def urlencode_model (d : List (List Char × List (List Char))) : List Char :=
  List.intercalate ['&']
    (d.flatMap fun e => e.2.map (fun v => quotePlusList e.1 ++ '=' :: quotePlusList v))

/-- The query-rewriting tail shared by `IndividualRecipeScraper.format_image_url`
(lines 100-114) and `format_image_url_for_csv`: parse the URL, overwrite the
given query keys in order, re-serialize the query, rebuild the URL. -/
def reparam (overrides : List (List Char × List (List Char))) (url : String) : String :=
  let u := urlparse_model url.data
  let d := overrides.foldl (fun d kv => dictSet d kv.1 kv.2) (parse_qs_model u.query)
  String.mk (urlunparse_model { u with query := urlencode_model d })

/-- The `w/h/fit/q` assignments of `IndividualRecipeScraper.format_image_url`. -/
def stdOverrides : List (List Char × List (List Char)) :=
  [("w".data, ["640".data]), ("h".data, ["640".data]),
   ("fit".data, ["cover".data]), ("q".data, ["75".data])]

/-- The assignments of `format_image_url_for_csv` (adds webp output and the
empty-valued `af`/`il` flags). -/
def csvOverrides : List (List Char × List (List Char)) :=
  stdOverrides ++ [("output".data, ["webp".data]), ("af".data, ["".data]), ("il".data, ["".data])]

end UrlLib

/-- Collapse runs of whitespace to a single space
(models `re.sub(r'\s+', ' ', ...)`); the flag records whether the previous
character was part of a whitespace run already emitted. -/
def collapseWsAux : Bool → List Char → List Char
  | _, [] => []
  | inWs, c :: rest =>
    if isPyWs c then
      if inWs then collapseWsAux true rest else ' ' :: collapseWsAux true rest
    else c :: collapseWsAux false rest

/-- Shared by both scrapers: `clean_time_format`. -/
def clean_time_format (time_text : String) : String :=
  if time_text = "" then ""
  else
    strStrip (String.mk (collapseWsAux false
      (replaceSeg "hrcook".data "hr".data
        (replaceSeg "minscook".data "mins".data time_text.data))))

/-! ### Data model -/

/-- One row of the tabular store / one assembled record. Field names follow
the CSV header `Image, Title, Time, Chef Name, Chef Image, Description,
Dietary Requirements`. -/
structure RecipeRecord where
  Image : String
  Title : String
  Time : String
  ChefName : String
  ChefImage : String
  Description : String
  DietaryRequirements : String
deriving DecidableEq, Repr

/-- Shapes of a JSON-LD attribute value that the code's `isinstance`
branches distinguish: a string, a list (whose relevant members are strings),
a dict carrying a `url` key, a dict without one, or anything else. -/
inductive JVal where
  | str (s : String)
  | strList (l : List String)
  | objUrl (u : String)
  | objNoUrl
  | other
deriving DecidableEq, Repr

/-- One embedded structured-data object (`json_ld_data` entry). `none`
models an absent key; `nutritionSuitableForDiet` is the value of
`ld['nutrition']['suitableForDiet']` when `ld['nutrition']` is a dict
carrying that key, else `none`. -/
structure LdObject where
  type : Option String
  name : Option String
  image : Option JVal
  description : Option String
  about : Option String
  articleBody : Option String
  recipeCategory : Option JVal
  keywords : Option JVal
  suitableForDiet : Option JVal
  nutritionSuitableForDiet : Option JVal
deriving DecidableEq, Repr

/-- An `LdObject` with every attribute absent. -/
def LdObject.empty : LdObject :=
  { type := none, name := none, image := none, description := none, about := none,
    articleBody := none, recipeCategory := none, keywords := none,
    suitableForDiet := none, nutritionSuitableForDiet := none }

/-- Models Python `str.split(',')` followed by `.strip()` on each piece
(the `keywords` handling shared by both scrapers). -/
def splitCommaStrip (s : String) : List String :=
  (splitAll ',' s.data).map (fun piece => String.mk (pyStrip piece))

/-! ### scrape_individual_recipe.py -/

namespace IndividualRecipeScraper

def base_url : String := "https://www.mob.co.uk"

/-- The fixed Mob profile avatar substituted for a missing chef image
(scrape_individual_recipe.py line 235). -/
def default_chef_image : String :=
  "https://images.weserv.nl/?url=https://files.mob-cdn.co.uk/files/PROFILE-ICONS_BLACK-2.png?mtime=1702924115&w=640&h=640&fit=cover&q=75&output=jpg&sharp=1&af=&il="

/-- `IndividualRecipeScraper.format_image_url` (lines 85-114). The three
early branches return f-string concatenations with the raw URL interpolated;
any other URL (already proxied or of unrecognized shape) falls through to
the urlparse/parse_qs/urlencode rewriting of lines 100-114. -/
def format_image_url (url : String) : String :=
  if url = "" then ""
  else if strStartsWith url "https://images.weserv.nl" = true then
    UrlLib.reparam UrlLib.stdOverrides url
  else if strContains url "mob-cdn.co.uk" = true then
    "https://images.weserv.nl/?url=" ++ (url ++ "&w=640&h=640&fit=cover&q=75")
  else if strStartsWith url "//" = true then
    "https://images.weserv.nl/?url=https:" ++ (url ++ "&w=640&h=640&fit=cover&q=75")
  else if strStartsWith url "/" = true then
    "https://images.weserv.nl/?url=" ++ (base_url ++ (url ++ "&w=640&h=640&fit=cover&q=75"))
  else
    UrlLib.reparam UrlLib.stdOverrides url

/-- The values the RecipeHero selectors of `scrape_recipe` (lines 132-174)
yield for one page; `""` models an absent element or attribute, exactly as
the code leaves the corresponding field untouched then. -/
structure HeroFields where
  title : String
  description : String
  time : String
  chefName : String
  chefImage : String
  image : String
deriving DecidableEq, Repr

/-- The initial `recipe_data` dict of lines 122-130 after the hero pass of
lines 132-174. -/
def initial_record (hero : HeroFields) : RecipeRecord :=
  { Image := hero.image, Title := hero.title, Time := hero.time,
    ChefName := hero.chefName, ChefImage := hero.chefImage,
    Description := hero.description, DietaryRequirements := "None" }

/-- One iteration of the JSON-LD fallback loop (lines 178-218): a `Recipe`
object fills still-empty Title/Image/Description and overwrites Dietary
Requirements when it carries any category/keyword tags; a `Person` object
fills still-empty Chef Name/Chef Image. -/
def applyLd (rd : RecipeRecord) (ld : LdObject) : RecipeRecord :=
  if ld.type = some "Recipe" then
    let title := if rd.Title = "" then ld.name.getD "" else rd.Title
    let image :=
      if rd.Image = "" then
        match ld.image with
        | some (JVal.strList (s :: _)) => s
        | some (JVal.objUrl u) => u
        | some (JVal.str s) => s
        | _ => rd.Image
      else rd.Image
    let desc :=
      if rd.Description = "" then
        let d0 := ld.description.getD ""
        let d1 := if d0 = "" then ld.about.getD "" else d0
        if d1 = "" then ld.articleBody.getD "" else d1
      else rd.Description
    let tags :=
      (match ld.recipeCategory with
       | some (JVal.strList l) => l
       | some (JVal.str s) => [s]
       | _ => []) ++
      (match ld.keywords with
       | some (JVal.str s) => splitCommaStrip s
       | _ => [])
    let dr :=
      if tags ≠ [] then String.intercalate ", " (sorted_set tags)
      else rd.DietaryRequirements
    { rd with Title := title, Image := image, Description := desc,
              DietaryRequirements := dr }
  else if ld.type = some "Person" then
    let cn := if rd.ChefName = "" then ld.name.getD "" else rd.ChefName
    let ci :=
      if rd.ChefImage = "" then
        match ld.image with
        | some (JVal.objUrl u) => u
        | some (JVal.str s) => s
        | _ => rd.ChefImage
      else rd.ChefImage
    { rd with ChefName := cn, ChefImage := ci }
  else rd

/-- Lines 176-228 of `scrape_recipe`: the JSON-LD pass, the `og:image`
fallback, and the image-URL cleanup. -/
def resolve_record (hero : HeroFields) (jsonLd : List LdObject) (ogImage : String) :
    RecipeRecord :=
  let rd1 := jsonLd.foldl applyLd (initial_record hero)
  let rd2 := if rd1.Image = "" then { rd1 with Image := ogImage } else rd1
  { rd2 with
      Image := format_image_url (strip_cropping_from_url rd2.Image),
      ChefImage := format_image_url (strip_cropping_from_url rd2.ChefImage) }

/-- Lines 230-235: default Chef Name / Chef Image substitution. -/
def apply_defaults (rd : RecipeRecord) : RecipeRecord :=
  let rd4 := if rd.ChefName = "" then { rd with ChefName := "Mob" } else rd
  if rd4.ChefImage = "" then { rd4 with ChefImage := default_chef_image } else rd4

/-- `IndividualRecipeScraper.scrape_recipe` (lines 116-246) for one fetched,
parsed page: resolve, default, then gate on essential data (lines 237-240);
`none` models the skipped record. -/
def scrape_recipe (hero : HeroFields) (jsonLd : List LdObject) (ogImage : String) :
    Option RecipeRecord :=
  let rd := apply_defaults (resolve_record hero jsonLd ogImage)
  if rd.Title = "" ∨ rd.Image = "" then none else some rd

/-- `IndividualRecipeScraper.save_to_csv` (lines 248-275) on the decoded row
list of the store: every row whose Title equals the record's Title is
replaced by the record (`found` is set exactly when some row matched), and
the record is appended when no row matched. -/
def save_to_csv (recipe_data : RecipeRecord) (rows : List RecipeRecord) :
    List RecipeRecord :=
  let newRows := rows.map fun row => if row.Title == recipe_data.Title then recipe_data else row
  if rows.any fun row => row.Title == recipe_data.Title then newRows
  else newRows ++ [recipe_data]

/-- Line 31: the scraper's backup file name for a given wall-clock
timestamp already formatted as `YYYYMMDD_HHMMSS`. -/
def backup_file (timestamp : String) : String :=
  "mob_recipes_backup_" ++ timestamp ++ ".csv"

end IndividualRecipeScraper

/-! ### scrape_recipes.py -/

namespace MobScraper

def base_url : String := "https://www.mob.co.uk"

/-- The placeholder data URI checked at line 292. -/
def placeholder_gif : String :=
  "data:image/gif;base64,R0lGODlhAQABAIAAAAAAAP///yH5BAEAAAAALAAAAAABAAEAAAIBRAA7"

/-- `MobScraper.format_image_url` (lines 311-322): wraps CDN, scheme-relative
and host-relative URLs for the proxy without any sizing parameters; every
other URL (already proxied or unrecognized) is returned unchanged by the
final `return url`. -/
def format_image_url (url : String) : String :=
  if url = "" then ""
  else if strStartsWith url "https://images.weserv.nl" = true then url
  else if strContains url "mob-cdn.co.uk" = true then
    "https://images.weserv.nl/?url=" ++ url
  else if strStartsWith url "//" = true then
    "https://images.weserv.nl/?url=https:" ++ url
  else if strStartsWith url "/" = true then
    "https://images.weserv.nl/?url=" ++ (base_url ++ url)
  else url

/-- The values the collection-card selectors of `extract_recipe_data`
(lines 102-124) yield. `hasRecipeLink = false` models the missing recipe
link that raises the `ValueError` caught at line 307 (the card is skipped);
`chefName`/`chefUrlPath` are `""` when the card has no chef link. -/
structure CardData where
  hasRecipeLink : Bool
  title : String
  timeText : String
  chefName : String
  chefUrlPath : String
  imgSrc : String
  imgDataSrc : String
deriving DecidableEq, Repr

/-- The individual recipe page as the code reads it: its JSON-LD objects,
the description-fallback div text (lines 210-220), and the `og:image`
content (lines 222-229); `""` models absence. -/
structure PageData where
  jsonLd : List LdObject
  descFallback : String
  ogImage : String
deriving DecidableEq, Repr

/-- The chef page fetched by the chef-image fallback (lines 242-270). -/
structure ChefPageData where
  ogImage : String
  jsonLd : List LdObject
deriving DecidableEq, Repr

/-- Mutable loop state of lines 132-135. -/
structure LoopState where
  recipe_img : String
  description : String
  dietary : List String
  chef_img : String
deriving DecidableEq, Repr

/-- One iteration of the JSON-LD loop of lines 138-207. A `Recipe` object
overwrites `recipe_img` (when it has a usable `image`) and `description`
(unconditionally, from its own description/about/articleBody chain) and
extends the cumulative dietary tag list; a `Person` object overwrites
`chef_img` only when its `name` equals the card's chef name. -/
def applyLd (chef_name : String) (st : LoopState) (ld : LdObject) : LoopState :=
  if ld.type = some "Recipe" then
    let recipe_img :=
      match ld.image with
      | some (JVal.strList (s :: _)) => s
      | some (JVal.objUrl u) => u
      | some (JVal.str s) => s
      | _ => st.recipe_img
    let d0 := ld.description.getD ""
    let d1 := if d0 = "" then ld.about.getD "" else d0
    let d2 := if d1 = "" then ld.articleBody.getD "" else d1
    let newTags :=
      (match ld.recipeCategory with
       | some (JVal.strList l) => l
       | some (JVal.str s) => [s]
       | _ => []) ++
      (match ld.keywords with
       | some (JVal.str s) => splitCommaStrip s
       | _ => []) ++
      (match ld.suitableForDiet with
       | some (JVal.strList l) => l
       | some (JVal.str s) => [s]
       | _ => []) ++
      (match ld.nutritionSuitableForDiet with
       | some (JVal.strList l) => l
       | some (JVal.str s) => [s]
       | _ => [])
    { st with recipe_img := recipe_img, description := d2,
              dietary := st.dietary ++ newTags }
  else if ld.type = some "Person" then
    if ld.name = some chef_name then
      match ld.image with
      | some (JVal.objUrl u) => { st with chef_img := u }
      | some (JVal.str s) => { st with chef_img := s }
      | _ => st
    else st
  else st

/-- The chef-page JSON-LD fallback loop of lines 256-270: the last `Person`
object whose name equals the chef name and that carries a usable image wins. -/
def chefPageApply (chef_name : String) (img : String) (ld : LdObject) : String :=
  if ld.type = some "Person" then
    if ld.name = some chef_name then
      match ld.image with
      | some (JVal.objUrl u) => u
      | some (JVal.str s) => s
      | _ => img
    else img
  else img

/-- Lines 274-285: trim tags, drop empties, deduplicate, sort. -/
def clean_dietary (dietary_requirements : List String) : List String :=
  sorted_set ((dietary_requirements.map strStrip).filter (fun s => s != ""))

/-- Lines 278-285: the `Dietary Requirements` output string. A falsy
(empty) `default_dietary_category` behaves like an absent one, so the
parameter is modeled as a `String` with `""` for `None`. -/
def dietary_output (tags : List String) (default_dietary_category : String) : String :=
  let cleaned := clean_dietary tags
  if cleaned = [] ∧ default_dietary_category ≠ "" then default_dietary_category
  else if cleaned ≠ [] then String.intercalate ", " cleaned
  else "None"

/-- The record dict built at lines 296-304. -/
def build_record (title time_text chef_name description dietary_out
    recipe_img2 chef_img2 : String) : RecipeRecord :=
  { Image := if recipe_img2 ≠ "" then format_image_url recipe_img2 else "",
    Title := title,
    Time := time_text,
    ChefName := chef_name,
    ChefImage := if chef_img2 ≠ "" then format_image_url chef_img2 else "",
    Description := description,
    DietaryRequirements := dietary_out }

/-- The field values `extract_recipe_data` has resolved when it reaches the
gate at line 291: cleaned time text, resolved description, crop-stripped
recipe and chef image, and the dietary output string. -/
structure Resolved where
  time_text : String
  description : String
  recipe_img2 : String
  chef_img2 : String
  dietary_out : String
deriving DecidableEq, Repr

/-- Lines 117-290 of `extract_recipe_data`: the JSON-LD pass over the
individual page, the description / recipe-image / chef-image fallbacks, the
dietary cleanup, and the crop stripping. -/
def resolve_card (card : CardData) (page : PageData) (chefPage : ChefPageData)
    (default_dietary_category : String) : Resolved :=
  let time_text := clean_time_format card.timeText
  let chef_name := card.chefName
  let st := page.jsonLd.foldl (applyLd chef_name) ⟨"", "", [], ""⟩
  let description := if st.description = "" then page.descFallback else st.description
  let recipe_img :=
    if st.recipe_img = "" then
      if page.ogImage ≠ "" then page.ogImage
      else if card.imgSrc ≠ "" then card.imgSrc
      else card.imgDataSrc
    else st.recipe_img
  let chef_img :=
    if st.chef_img = "" ∧ card.chefUrlPath ≠ "" then
      if chefPage.ogImage ≠ "" then chefPage.ogImage
      else chefPage.jsonLd.foldl (chefPageApply chef_name) ""
    else st.chef_img
  { time_text := time_text,
    description := description,
    recipe_img2 := strip_cropping_from_url recipe_img,
    chef_img2 := strip_cropping_from_url chef_img,
    dietary_out := dietary_output st.dietary default_dietary_category }

/-- `MobScraper.extract_recipe_data` (lines 98-309) for one card whose
individual page (and, if the fallback fires, chef page) has been fetched
and parsed; `none` models a skipped card (missing link, missing title, or
the placeholder-image-with-empty-description heuristic of lines 291-294). -/
def extract_recipe_data (card : CardData) (page : PageData) (chefPage : ChefPageData)
    (default_dietary_category : String) : Option RecipeRecord :=
  if card.hasRecipeLink = false then none
  else if card.title = "" then none
  else
    let rp := resolve_card card page chefPage default_dietary_category
    if rp.recipe_img2 = placeholder_gif ∧ rp.description = "" then none
    else
      some (build_record card.title rp.time_text card.chefName rp.description
        rp.dietary_out rp.recipe_img2 rp.chef_img2)

/-- `MobScraper.scrape_recipes` (lines 324-368) restricted to its
persistence effect: every successfully extracted record is appended to the
store (append mode, no deduplication; lines 341-361). -/
def scrape_recipes (cards : List (CardData × PageData × ChefPageData))
    (default_dietary_category : String) (store : List RecipeRecord) : List RecipeRecord :=
  store ++ cards.filterMap
    (fun x => extract_recipe_data x.1 x.2.1 x.2.2 default_dietary_category)

/-- Line 32: the scraper's backup file name (`backup_existing_csv` copies
the store `mob_recipes_local.csv` to this path). -/
def backup_file (timestamp : String) : String :=
  "mob_recipes_backup_" ++ timestamp ++ ".csv"

end MobScraper

/-! ### update_csv_images.py -/

/-- `format_image_url_for_csv` (lines 5-36): rewrites the query of URLs
already on the proxy host, forcing `w/h/fit/q` plus webp output and the
empty-valued `af`/`il` flags; any other URL is returned unchanged. -/
def format_image_url_for_csv (url : String) : String :=
  if url = "" then ""
  else if strStartsWith url "https://images.weserv.nl" = true then
    UrlLib.reparam UrlLib.csvOverrides url
  else url

/-! ### update_pescatarian.py -/

/-- Lines 6-8: the backup file name used by `update_pescatarian_dietary`. -/
def pescatarian_backup_file (timestamp : String) : String :=
  "mob_recipes_local_backup_" ++ timestamp ++ ".csv"

/-- Lines 18-22: one row of the update pass. -/
def pescatarian_update_row (row : RecipeRecord) : RecipeRecord :=
  if strContains (strLower row.Description) "pescatarian" = true then
    { row with DietaryRequirements := "Pescatarian" }
  else row

/-- `update_pescatarian_dietary` (lines 5-28) restricted to its effect on
the decoded row list: rows are processed and written back in order. -/
def update_pescatarian_dietary (rows : List RecipeRecord) : List RecipeRecord :=
  rows.map pescatarian_update_row

/-! ### Spec-side definitions (for refinement comparisons) -/

/-- Modelled from the spec: the backup naming convention of section 6,
`<store-basename>_backup_<timestamp>.<ext>`. -/
def spec_backup_name (basename ext timestamp : String) : String :=
  basename ++ "_backup_" ++ timestamp ++ "." ++ ext

/-- Modelled from the spec: the dietary-tag normalization it describes —
the deduplicated, whitespace-trimmed, lexicographically sorted tag list
joined with `", "`; an empty (after trimming) collection yields `"None"`
unless a non-empty default category is supplied, which is used verbatim. -/
def spec_dietary_value (tags : List String) (defaultCategory : String) : String :=
  let cleaned := List.insertionSort pyLeRel (((tags.map strStrip).filter (fun s => s != "")).dedup)
  if cleaned = [] then (if defaultCategory = "" then "None" else defaultCategory)
  else String.intercalate ", " cleaned

/-- The composition lines 288 and 297 of scrape_recipes.py apply to an image
URL: crop-segment stripping followed by proxy rewriting. -/
def MobScraper.normalize_image (u : String) : String :=
  MobScraper.format_image_url (strip_cropping_from_url u)

/-! ### Helper lemmas about the URL wrappers -/

theorem strAppend_assoc (a b c : String) : a ++ b ++ c = a ++ (b ++ c) := by
  apply strExt
  rw [strData_append, strData_append, strData_append, strData_append, List.append_assoc]

theorem strStartsWith_append (p s q : String) (h : leadsWith q.data p.data = true) :
    strStartsWith (p ++ s) q = true := by
  unfold strStartsWith
  rw [strData_append]
  exact leadsWith_append _ _ _ h

theorem wrapped_ne_empty (p s : String) (hp : p.data ≠ []) : (p ++ s) ≠ "" := by
  intro h
  have hd := congrArg String.data h
  rw [strData_append] at hd
  have hnil : p.data ++ s.data = ([] : List Char) := hd
  exact hp (List.append_eq_nil.mp hnil).1

/-! ### Claims -/

/-- Claim C3, counterexample: the normalizer (crop-segment stripping followed
by proxy rewriting, here the MobScraper variant both cited lines implement
identically for this input) is not idempotent. On a URL with two adjacent
crop segments, `re.sub` removes only the first segment per pass, so a second
normalization pass changes the already-normalized URL again. -/
theorem c3_counterexample :
    MobScraper.normalize_image "https://files.mob-cdn.co.uk/_1x1_crop_a/_2x2_crop_b/f.jpg"
      = "https://images.weserv.nl/?url=https://files.mob-cdn.co.uk/_2x2_crop_b/f.jpg" ∧
    MobScraper.normalize_image (MobScraper.normalize_image
        "https://files.mob-cdn.co.uk/_1x1_crop_a/_2x2_crop_b/f.jpg")
      = "https://images.weserv.nl/?url=https://files.mob-cdn.co.uk/f.jpg" ∧
    MobScraper.normalize_image (MobScraper.normalize_image
        "https://files.mob-cdn.co.uk/_1x1_crop_a/_2x2_crop_b/f.jpg")
      ≠ MobScraper.normalize_image "https://files.mob-cdn.co.uk/_1x1_crop_a/_2x2_crop_b/f.jpg" :=
  ⟨by decide, by decide, by decide⟩

/-- Claim C3, amended: the proxy-rewriting step of the MobScraper normalizer
on its own is idempotent — every output of `format_image_url` is a fixed
point of `format_image_url`; the full normalizer (stripping then rewriting)
is not, because one stripping pass can leave a crop segment behind
(`c3_counterexample`). -/
theorem c3_rewrite_idempotent (u : String) :
    MobScraper.format_image_url (MobScraper.format_image_url u)
      = MobScraper.format_image_url u := by
  by_cases h0 : u = ""
  · subst h0
    rfl
  · by_cases h1 : strStartsWith u "https://images.weserv.nl" = true
    · have hu : MobScraper.format_image_url u = u := by
        simp [MobScraper.format_image_url, h0, h1]
      rw [hu, hu]
    · have h1f : strStartsWith u "https://images.weserv.nl" = false :=
        Bool.not_eq_true _ ▸ eq_false_of_ne_true h1
      by_cases h2 : strContains u "mob-cdn.co.uk" = true
      · have hu : MobScraper.format_image_url u
            = "https://images.weserv.nl/?url=" ++ u := by
          simp [MobScraper.format_image_url, h0, h1f, h2]
        rw [hu]
        have hne := wrapped_ne_empty "https://images.weserv.nl/?url=" u (by decide)
        have hsw := strStartsWith_append "https://images.weserv.nl/?url=" u
          "https://images.weserv.nl" (by decide)
        simp [MobScraper.format_image_url, hne, hsw]
      · by_cases h3 : strStartsWith u "//" = true
        · have hu : MobScraper.format_image_url u
              = "https://images.weserv.nl/?url=https:" ++ u := by
            simp [MobScraper.format_image_url, h0, h1f, h2, h3]
          rw [hu]
          have hne := wrapped_ne_empty "https://images.weserv.nl/?url=https:" u (by decide)
          have hsw := strStartsWith_append "https://images.weserv.nl/?url=https:" u
            "https://images.weserv.nl" (by decide)
          simp [MobScraper.format_image_url, hne, hsw]
        · by_cases h4 : strStartsWith u "/" = true
          · have hu : MobScraper.format_image_url u
                = "https://images.weserv.nl/?url=" ++ (MobScraper.base_url ++ u) := by
              simp [MobScraper.format_image_url, h0, h1f, h2, h3, h4]
            rw [hu]
            have hne := wrapped_ne_empty "https://images.weserv.nl/?url="
              (MobScraper.base_url ++ u) (by decide)
            have hsw := strStartsWith_append "https://images.weserv.nl/?url="
              (MobScraper.base_url ++ u) "https://images.weserv.nl" (by decide)
            simp [MobScraper.format_image_url, hne, hsw]
          · have hu : MobScraper.format_image_url u = u := by
              simp [MobScraper.format_image_url, h0, h1f, h2, h3, h4]
            rw [hu, hu]

/-- Claim C4, counterexample: the wrapped result does not carry the
query-encoded original URL — the code interpolates the original verbatim
into the f-string, so the claimed form (with `quote_plus` applied to the
original) differs from the actual result; moreover the MobScraper variant
appends no sizing parameters at all. -/
theorem c4_counterexample :
    UrlLib.quote_plus "https://files.mob-cdn.co.uk/x.jpg"
      = "https%3A%2F%2Ffiles.mob-cdn.co.uk%2Fx.jpg" ∧
    IndividualRecipeScraper.format_image_url "https://files.mob-cdn.co.uk/x.jpg"
      = "https://images.weserv.nl/?url=https://files.mob-cdn.co.uk/x.jpg&w=640&h=640&fit=cover&q=75" ∧
    IndividualRecipeScraper.format_image_url "https://files.mob-cdn.co.uk/x.jpg"
      ≠ "https://images.weserv.nl/?url="
          ++ (UrlLib.quote_plus "https://files.mob-cdn.co.uk/x.jpg"
              ++ "&w=640&h=640&fit=cover&q=75") ∧
    strContains (MobScraper.format_image_url "https://files.mob-cdn.co.uk/x.jpg") "w=640"
      = false :=
  ⟨by decide, by decide, by decide, by decide⟩

/-- Claim C4, amended: for a non-empty, not-yet-proxied URL that contains the
CDN host, or is scheme-relative, or is host-relative, the individual-recipe
normalizer returns `https://<proxy-host>/?url=<original>&w=640&h=640&fit=cover&q=75`
with the original URL (after `https:` prefixing resp. base-origin joining)
interpolated verbatim — not query-encoded (`c4_counterexample`); the
MobScraper variant wraps the same way but appends no sizing parameters. -/
theorem c4_wrap_form (u : String) (h0 : u ≠ "")
    (h1 : strStartsWith u "https://images.weserv.nl" = false) :
    (strContains u "mob-cdn.co.uk" = true →
      IndividualRecipeScraper.format_image_url u
        = "https://images.weserv.nl/?url=" ++ (u ++ "&w=640&h=640&fit=cover&q=75")) ∧
    (strContains u "mob-cdn.co.uk" = false → strStartsWith u "//" = true →
      IndividualRecipeScraper.format_image_url u
        = "https://images.weserv.nl/?url=https:" ++ (u ++ "&w=640&h=640&fit=cover&q=75")) ∧
    (strContains u "mob-cdn.co.uk" = false → strStartsWith u "//" = false →
      strStartsWith u "/" = true →
      IndividualRecipeScraper.format_image_url u
        = "https://images.weserv.nl/?url="
            ++ (IndividualRecipeScraper.base_url ++ (u ++ "&w=640&h=640&fit=cover&q=75"))) := by
  refine ⟨?_, ?_, ?_⟩
  · intro h2
    simp [IndividualRecipeScraper.format_image_url, h0, h1, h2]
  · intro h2 h3
    simp [IndividualRecipeScraper.format_image_url, h0, h1, h2, h3]
  · intro h2 h3 h4
    simp [IndividualRecipeScraper.format_image_url, h0, h1, h2, h3, h4]

/-- Witness for `c4_wrap_form` at a concrete CDN URL. -/
theorem c4_wrap_form_witness :
    ("https://files.mob-cdn.co.uk/y.png" : String) ≠ "" ∧
    strStartsWith "https://files.mob-cdn.co.uk/y.png" "https://images.weserv.nl" = false ∧
    strContains "https://files.mob-cdn.co.uk/y.png" "mob-cdn.co.uk" = true ∧
    IndividualRecipeScraper.format_image_url "https://files.mob-cdn.co.uk/y.png"
      = "https://images.weserv.nl/?url="
          ++ ("https://files.mob-cdn.co.uk/y.png" ++ "&w=640&h=640&fit=cover&q=75") :=
  ⟨by decide, by decide, by decide,
    (c4_wrap_form "https://files.mob-cdn.co.uk/y.png" (by decide) (by decide)).1 (by decide)⟩

/-- Claim C5, counterexample: an unrecognized URL (not proxied, not
host-relative, not scheme-relative, not from the CDN) is not returned
unchanged by the individual-recipe normalizer — it falls through to the
query-rewriting branch, which appends the sizing parameters. -/
theorem c5_counterexample :
    strStartsWith "http://example.com/a.jpg" "https://images.weserv.nl" = false ∧
    strContains "http://example.com/a.jpg" "mob-cdn.co.uk" = false ∧
    strStartsWith "http://example.com/a.jpg" "//" = false ∧
    strStartsWith "http://example.com/a.jpg" "/" = false ∧
    IndividualRecipeScraper.format_image_url "http://example.com/a.jpg"
      = "http://example.com/a.jpg?w=640&h=640&fit=cover&q=75" ∧
    IndividualRecipeScraper.format_image_url "http://example.com/a.jpg"
      ≠ "http://example.com/a.jpg" :=
  ⟨by decide, by decide, by decide, by decide, by decide, by decide⟩

/-- Claim C5, amended: the MobScraper normalizer and the CSV-update
normalizer return an unrecognized URL unchanged; the individual-recipe
normalizer instead rewrites its query string (`c5_counterexample`). -/
theorem c5_unrecognized_noop (u : String)
    (h1 : strStartsWith u "https://images.weserv.nl" = false)
    (h2 : strContains u "mob-cdn.co.uk" = false)
    (h3 : strStartsWith u "//" = false)
    (h4 : strStartsWith u "/" = false) :
    MobScraper.format_image_url u = u ∧ format_image_url_for_csv u = u := by
  constructor
  · by_cases h0 : u = ""
    · simp [MobScraper.format_image_url, h0]
    · simp [MobScraper.format_image_url, h0, h1, h2, h3, h4]
  · by_cases h0 : u = ""
    · simp [format_image_url_for_csv, h0]
    · simp [format_image_url_for_csv, h0, h1]

/-- Witness for `c5_unrecognized_noop` at a concrete unrecognized URL. -/
theorem c5_unrecognized_noop_witness :
    strStartsWith "http://other.example/img.png" "https://images.weserv.nl" = false ∧
    strContains "http://other.example/img.png" "mob-cdn.co.uk" = false ∧
    strStartsWith "http://other.example/img.png" "//" = false ∧
    strStartsWith "http://other.example/img.png" "/" = false ∧
    (MobScraper.format_image_url "http://other.example/img.png" = "http://other.example/img.png" ∧
     format_image_url_for_csv "http://other.example/img.png" = "http://other.example/img.png") :=
  ⟨by decide, by decide, by decide, by decide,
    c5_unrecognized_noop "http://other.example/img.png"
      (by decide) (by decide) (by decide) (by decide)⟩

/-- Helper for the backup-naming claim: align the concatenation groupings. -/
theorem backup_name_eq (base pre : String) (h : base ++ "_backup_" = pre) (ts : String) :
    pre ++ ts ++ ".csv" = spec_backup_name base "csv" ts := by
  unfold spec_backup_name
  rw [strAppend_assoc (base ++ "_backup_" ++ ts) "." "csv"]
  rw [show ("." ++ "csv" : String) = ".csv" from by decide]
  rw [h]

/-- Claim C9, counterexample: the scraper components back up the store
`mob_recipes_local.csv` under the name `mob_recipes_backup_<timestamp>.csv`,
which is not `<store-basename>_backup_<timestamp>.<ext>` for the store
basename `mob_recipes_local`. -/
theorem c9_counterexample :
    MobScraper.backup_file "20260101_120000" = "mob_recipes_backup_20260101_120000.csv" ∧
    spec_backup_name "mob_recipes_local" "csv" "20260101_120000"
      = "mob_recipes_local_backup_20260101_120000.csv" ∧
    MobScraper.backup_file "20260101_120000"
      ≠ spec_backup_name "mob_recipes_local" "csv" "20260101_120000" :=
  ⟨by decide, by decide, by decide⟩

/-- Claim C9, amended: only the pescatarian updater's backup of
`mob_recipes_local.csv` follows the convention
`<store-basename>_backup_<timestamp>.<ext>`; both scrapers name their backup
of the same store with basename `mob_recipes` instead
(`c9_counterexample`). -/
theorem c9_backup_naming (timestamp : String) :
    pescatarian_backup_file timestamp
      = spec_backup_name "mob_recipes_local" "csv" timestamp ∧
    MobScraper.backup_file timestamp = spec_backup_name "mob_recipes" "csv" timestamp ∧
    IndividualRecipeScraper.backup_file timestamp
      = spec_backup_name "mob_recipes" "csv" timestamp :=
  ⟨backup_name_eq "mob_recipes_local" "mob_recipes_local_backup_" (by decide) timestamp,
   backup_name_eq "mob_recipes" "mob_recipes_backup_" (by decide) timestamp,
   backup_name_eq "mob_recipes" "mob_recipes_backup_" (by decide) timestamp⟩

/-- The per-row contract of the pescatarian updater: all fields except
Dietary Requirements are unchanged; Dietary Requirements becomes exactly
`"Pescatarian"` when the Description contains `pescatarian`
case-insensitively, and is unchanged otherwise. -/
def pescatarian_row_spec (r rOut : RecipeRecord) : Prop :=
  rOut.Image = r.Image ∧ rOut.Title = r.Title ∧ rOut.Time = r.Time ∧
  rOut.ChefName = r.ChefName ∧ rOut.ChefImage = r.ChefImage ∧
  rOut.Description = r.Description ∧
  (strContains (strLower r.Description) "pescatarian" = true →
    rOut.DietaryRequirements = "Pescatarian") ∧
  (strContains (strLower r.Description) "pescatarian" = false →
    rOut.DietaryRequirements = r.DietaryRequirements)

/-- Claim C10: the pescatarian updater preserves row count and row order,
and each output row satisfies the per-row contract against the input row at
the same position (matching rows get Dietary Requirements `"Pescatarian"`,
all other fields and all other rows are untouched; the fixed column order is
the `RecipeRecord` field order throughout). -/
theorem c10_pescatarian_frame (rows : List RecipeRecord) (i : Nat) (h : i < rows.length) :
    (update_pescatarian_dietary rows).length = rows.length ∧
    pescatarian_row_spec (rows.get ⟨i, h⟩)
      ((update_pescatarian_dietary rows).get
        ⟨i, by simpa [update_pescatarian_dietary] using h⟩) := by
  constructor
  · simp [update_pescatarian_dietary]
  · have hget : (update_pescatarian_dietary rows).get
        ⟨i, by simpa [update_pescatarian_dietary] using h⟩
        = pescatarian_update_row (rows.get ⟨i, h⟩) := by
      simp [update_pescatarian_dietary]
    rw [hget]
    unfold pescatarian_row_spec pescatarian_update_row
    simp only [List.get_eq_getElem]
    by_cases hc : strContains (strLower rows[i].Description) "pescatarian" = true
    · simp [hc]
    · simp [hc]

/-- Witness for `c10_pescatarian_frame` on a one-row store whose Description
mentions pescatarian. -/
def c10row : RecipeRecord :=
  { Image := "img", Title := "Tuna Bowl", Time := "10 mins", ChefName := "Mob",
    ChefImage := "ci", Description := "A Pescatarian favourite",
    DietaryRequirements := "None" }

theorem c10_pescatarian_frame_witness :
    0 < [c10row].length ∧
    ((update_pescatarian_dietary [c10row]).length = [c10row].length ∧
      pescatarian_row_spec ([c10row].get ⟨0, by decide⟩)
        ((update_pescatarian_dietary [c10row]).get ⟨0, by decide⟩)) :=
  ⟨by decide, c10_pescatarian_frame [c10row] 0 (by decide)⟩

/-- Claim C1, amended: the individual-recipe assembler returns a record only
when both Title and Image are non-empty after all resolution and fallback
steps, so its persisted records satisfy the invariant; the batch assembler
guarantees only a non-empty Title — it skips a record for a missing image
only in the special case where the (crop-stripped) image equals the known
placeholder data URI and the description is empty, so a record with empty
image and empty description can be persisted (`c1_counterexample`). -/
theorem c1_persistence_gate :
    (∀ (hero : IndividualRecipeScraper.HeroFields) (jsonLd : List LdObject)
        (ogImage : String) (r : RecipeRecord),
        IndividualRecipeScraper.scrape_recipe hero jsonLd ogImage = some r →
        r.Title ≠ "" ∧ r.Image ≠ "") ∧
    (∀ (card : MobScraper.CardData) (page : MobScraper.PageData)
        (chefPage : MobScraper.ChefPageData) (dflt : String) (r : RecipeRecord),
        MobScraper.extract_recipe_data card page chefPage dflt = some r →
        r.Title ≠ "") := by
  constructor
  · intro hero jsonLd ogImage r h
    simp only [IndividualRecipeScraper.scrape_recipe] at h
    split at h
    · exact Option.noConfusion h
    · rename_i hcond
      push_neg at hcond
      rw [Option.some_inj] at h
      subst h
      exact hcond
  · intro card page chefPage dflt r h
    simp only [MobScraper.extract_recipe_data] at h
    split at h
    · exact Option.noConfusion h
    · split at h
      · exact Option.noConfusion h
      · rename_i hlink htitle
        split at h
        · exact Option.noConfusion h
        · rw [Option.some_inj] at h
          subst h
          simpa [MobScraper.build_record] using htitle

/-- Witness for `c1_persistence_gate` (individual part) on a concrete page. -/
def c1hero : IndividualRecipeScraper.HeroFields :=
  { title := "T", description := "", time := "", chefName := "", chefImage := "",
    image := "/x.jpg" }

def c1rec : RecipeRecord :=
  { Image := "https://images.weserv.nl/?url=https://www.mob.co.uk/x.jpg&w=640&h=640&fit=cover&q=75",
    Title := "T", Time := "", ChefName := "Mob",
    ChefImage := IndividualRecipeScraper.default_chef_image,
    Description := "", DietaryRequirements := "None" }

theorem c1_persistence_gate_witness :
    IndividualRecipeScraper.scrape_recipe c1hero [] "" = some c1rec ∧
    (c1rec.Title ≠ "" ∧ c1rec.Image ≠ "") :=
  ⟨by decide, c1_persistence_gate.1 c1hero [] "" c1rec (by decide)⟩

/-- Claim C1, counterexample: a collection card with a recipe link and a
title but no image anywhere and no description is assembled into a record
with empty Image and empty Description, and that record is persisted by the
batch run — the placeholder check at scrape_recipes.py line 292 does not
fire for an empty image. -/
def c1card : MobScraper.CardData :=
  { hasRecipeLink := true, title := "Sweet Soy Cod", timeText := "", chefName := "",
    chefUrlPath := "", imgSrc := "", imgDataSrc := "" }

theorem c1_counterexample :
    (MobScraper.scrape_recipes [(c1card, ⟨[], "", ""⟩, ⟨"", []⟩)] "" []).map
        (fun r => (r.Title, r.Image, r.Description))
      = [("Sweet Soy Cod", "", "")] := by decide

theorem apply_defaults_chefName (rd : RecipeRecord) :
    (IndividualRecipeScraper.apply_defaults rd).ChefName
      = if rd.ChefName = "" then "Mob" else rd.ChefName := by
  simp only [IndividualRecipeScraper.apply_defaults]
  by_cases hcn : rd.ChefName = ""
  · simp only [hcn, if_pos rfl]
    by_cases hci : rd.ChefImage = "" <;> simp [hci]
  · simp only [if_neg hcn]
    by_cases hci : rd.ChefImage = "" <;> simp [hci]

theorem apply_defaults_chefImage (rd : RecipeRecord) :
    (IndividualRecipeScraper.apply_defaults rd).ChefImage
      = if rd.ChefImage = "" then IndividualRecipeScraper.default_chef_image
        else rd.ChefImage := by
  simp only [IndividualRecipeScraper.apply_defaults]
  by_cases hcn : rd.ChefName = ""
  · simp only [hcn, if_pos rfl]
    by_cases hci : rd.ChefImage = "" <;> simp [hci]
  · simp only [if_neg hcn]
    by_cases hci : rd.ChefImage = "" <;> simp [hci]

/-- Claim C7, amended: the individual-recipe assembler substitutes the
default identity `"Mob"` for an empty resolved chefName and the default
avatar URL for an empty resolved chefImage, so none of its returned records
has an empty chef field; the batch assembler applies no such defaulting and
can return records with empty chefName and chefImage
(`c7_counterexample`). -/
theorem c7_chef_defaults (hero : IndividualRecipeScraper.HeroFields)
    (jsonLd : List LdObject) (ogImage : String) (r : RecipeRecord)
    (h : IndividualRecipeScraper.scrape_recipe hero jsonLd ogImage = some r) :
    r.ChefName ≠ "" ∧ r.ChefImage ≠ "" ∧
    ((IndividualRecipeScraper.resolve_record hero jsonLd ogImage).ChefName = "" →
      r.ChefName = "Mob") ∧
    ((IndividualRecipeScraper.resolve_record hero jsonLd ogImage).ChefImage = "" →
      r.ChefImage = IndividualRecipeScraper.default_chef_image) := by
  have hr : r = IndividualRecipeScraper.apply_defaults
      (IndividualRecipeScraper.resolve_record hero jsonLd ogImage) := by
    simp only [IndividualRecipeScraper.scrape_recipe] at h
    split at h
    · exact Option.noConfusion h
    · exact (Option.some_inj.mp h).symm
  subst hr
  generalize IndividualRecipeScraper.resolve_record hero jsonLd ogImage = rd
  refine ⟨?_, ?_, ?_, ?_⟩
  · rw [apply_defaults_chefName]
    by_cases hcn : rd.ChefName = ""
    · rw [if_pos hcn]
      decide
    · rw [if_neg hcn]
      exact hcn
  · rw [apply_defaults_chefImage]
    by_cases hci : rd.ChefImage = ""
    · rw [if_pos hci]
      decide
    · rw [if_neg hci]
      exact hci
  · intro hcn
    rw [apply_defaults_chefName, if_pos hcn]
  · intro hci
    rw [apply_defaults_chefImage, if_pos hci]

/-- Witness for `c7_chef_defaults` on a page with no chef information. -/
def c7hero : IndividualRecipeScraper.HeroFields :=
  { title := "T7", description := "", time := "", chefName := "", chefImage := "",
    image := "//cdn7/i.jpg" }

def c7rec : RecipeRecord :=
  { Image := "https://images.weserv.nl/?url=https://cdn7/i.jpg&w=640&h=640&fit=cover&q=75",
    Title := "T7", Time := "", ChefName := "Mob",
    ChefImage := IndividualRecipeScraper.default_chef_image,
    Description := "", DietaryRequirements := "None" }

theorem c7_chef_defaults_witness :
    IndividualRecipeScraper.scrape_recipe c7hero [] "" = some c7rec ∧
    (IndividualRecipeScraper.resolve_record c7hero [] "").ChefName = "" ∧
    (IndividualRecipeScraper.resolve_record c7hero [] "").ChefImage = "" ∧
    (c7rec.ChefName ≠ "" ∧ c7rec.ChefImage ≠ "" ∧
      ((IndividualRecipeScraper.resolve_record c7hero [] "").ChefName = "" →
        c7rec.ChefName = "Mob") ∧
      ((IndividualRecipeScraper.resolve_record c7hero [] "").ChefImage = "" →
        c7rec.ChefImage = IndividualRecipeScraper.default_chef_image)) :=
  ⟨by decide, by decide, by decide, c7_chef_defaults c7hero [] "" c7rec (by decide)⟩

/-- Claim C7, counterexample: the batch assembler returns (and the batch run
persists) a record whose chefName and chefImage are both empty — no default
identity or avatar is substituted in scrape_recipes.py. -/
def c7card : MobScraper.CardData :=
  { hasRecipeLink := true, title := "No Chef Here", timeText := "", chefName := "",
    chefUrlPath := "", imgSrc := "/c7.jpg", imgDataSrc := "" }

theorem c7_counterexample :
    (MobScraper.extract_recipe_data c7card ⟨[], "", ""⟩ ⟨"", []⟩ "").map
        (fun r => (r.ChefName, r.ChefImage))
      = some ("", "") := by decide

/-- Claim C8, amended: in the batch scraper a `Person` structured object
contributes `chef_img` only when its `name` attribute equals the chef name
already resolved from the document — when no Person in the list matches, the
JSON-LD pass leaves `chef_img` untouched (it never fills the chef name at
all). The individual scraper, however, fills a still-empty Chef Image from
any Person object regardless of its name, so a Person whose name differs
from the already-resolved chef name can contribute the chef image there
(`c8_counterexample`). -/
theorem c8_person_gating (chef_name : String) (objs : List LdObject)
    (st : MobScraper.LoopState)
    (h : ∀ ld ∈ objs, ld.type = some "Person" → ld.name ≠ some chef_name) :
    (objs.foldl (MobScraper.applyLd chef_name) st).chef_img = st.chef_img := by
  induction objs generalizing st with
  | nil => rfl
  | cons ld rest ih =>
    have hld := h ld (List.mem_cons_self _ _)
    have hrest : ∀ l ∈ rest, l.type = some "Person" → l.name ≠ some chef_name :=
      fun l hl => h l (List.mem_cons_of_mem _ hl)
    rw [List.foldl_cons, ih _ hrest]
    unfold MobScraper.applyLd
    by_cases h1 : ld.type = some "Recipe"
    · simp [h1]
    · by_cases h2 : ld.type = some "Person"
      · have hne := hld h2
        simp [h1, h2, hne]
      · simp [h1, h2]

/-- Witness for `c8_person_gating`: a Person named Bob never touches the
chef image resolved for Alice in the batch scraper. -/
def c8obj : LdObject :=
  { LdObject.empty with
      type := some "Person", name := some "Bob", image := some (JVal.str "bob.jpg") }

theorem c8_person_gating_witness :
    (∀ ld ∈ [c8obj], ld.type = some "Person" → ld.name ≠ some "Alice") ∧
    ([c8obj].foldl (MobScraper.applyLd "Alice") ⟨"", "", [], ""⟩).chef_img
      = (MobScraper.LoopState.mk "" "" [] "").chef_img :=
  ⟨by decide, c8_person_gating "Alice" [c8obj] ⟨"", "", [], ""⟩ (by decide)⟩

/-- Claim C8, counterexample: in the individual scraper a `Person` object
named Bob fills the still-empty Chef Image even though the chef name already
resolved from the document is Alice — the name-match guard exists only in
the batch scraper. -/
def c8hero : IndividualRecipeScraper.HeroFields :=
  { title := "T8", description := "", time := "", chefName := "Alice", chefImage := "",
    image := "/x8.jpg" }

def c8person : LdObject :=
  { LdObject.empty with
      type := some "Person", name := some "Bob",
      image := some (JVal.str "//bob-cdn/b.jpg") }

theorem c8_counterexample :
    c8person.name = some "Bob" ∧ ("Bob" : String) ≠ "Alice" ∧
    (IndividualRecipeScraper.scrape_recipe c8hero [c8person] "").map
        (fun r => (r.ChefName, r.ChefImage))
      = some ("Alice",
          "https://images.weserv.nl/?url=https://bob-cdn/b.jpg&w=640&h=640&fit=cover&q=75") :=
  ⟨by decide, by decide, by decide⟩

/-- Claim C6, amended: the batch scraper's dietary output is exactly the
spec's normalization — trimmed, empty-dropped, deduplicated, sorted,
`", "`-joined, with the `"None"` sentinel / verbatim default for an empty
cleaned collection; the cleaned list is sorted, duplicate-free and contains
exactly the non-empty trimmed tags. The individual scraper, however, joins
`sorted(set(tags))` without trimming (and without dropping empty tags), so
its output can differ from the spec's value (`c6_counterexample`). -/
theorem c6_dietary_normalization (tags : List String) (dflt : String) :
    MobScraper.dietary_output tags dflt = spec_dietary_value tags dflt ∧
    List.Sorted pyLeRel (MobScraper.clean_dietary tags) ∧
    (MobScraper.clean_dietary tags).Nodup ∧
    (∀ s, s ∈ MobScraper.clean_dietary tags ↔ s ∈ tags.map strStrip ∧ s ≠ "") ∧
    (MobScraper.clean_dietary tags = [] →
      MobScraper.dietary_output tags dflt = (if dflt = "" then "None" else dflt)) ∧
    (MobScraper.clean_dietary tags ≠ [] →
      MobScraper.dietary_output tags dflt
        = String.intercalate ", " (MobScraper.clean_dietary tags)) := by
  have hplain : MobScraper.clean_dietary tags
      = List.insertionSort pyLeRel
          (((tags.map strStrip).filter (fun s => s != "")).dedup) := rfl
  refine ⟨?_, ?_, ?_, ?_, ?_, ?_⟩
  · unfold MobScraper.dietary_output spec_dietary_value
    rw [← hplain]
    by_cases hcl : MobScraper.clean_dietary tags = []
    · by_cases hd : dflt = "" <;> simp [hcl, hd]
    · simp [hcl]
  · rw [hplain]
    exact List.sorted_insertionSort pyLeRel _
  · rw [hplain]
    exact (List.perm_insertionSort pyLeRel _).nodup_iff.mpr (List.nodup_dedup _)
  · intro s
    rw [hplain, (List.perm_insertionSort pyLeRel _).mem_iff, List.mem_dedup,
      List.mem_filter]
    simp
  · intro hcl
    unfold MobScraper.dietary_output
    by_cases hd : dflt = "" <;> simp [hcl, hd]
  · intro hcl
    unfold MobScraper.dietary_output
    simp [hcl]

/-- Witness for `c6_dietary_normalization` on a tag multiset with
duplicates, whitespace and an all-whitespace tag. -/
theorem c6_dietary_normalization_witness :
    MobScraper.clean_dietary [" Vegan", "Dinner", "Vegan", " "] ≠ [] ∧
    MobScraper.clean_dietary [" Vegan", "Dinner", "Vegan", " "] = ["Dinner", "Vegan"] ∧
    (MobScraper.dietary_output [" Vegan", "Dinner", "Vegan", " "] "Vegetarian"
        = spec_dietary_value [" Vegan", "Dinner", "Vegan", " "] "Vegetarian" ∧
      List.Sorted pyLeRel (MobScraper.clean_dietary [" Vegan", "Dinner", "Vegan", " "]) ∧
      (MobScraper.clean_dietary [" Vegan", "Dinner", "Vegan", " "]).Nodup ∧
      (∀ s, s ∈ MobScraper.clean_dietary [" Vegan", "Dinner", "Vegan", " "] ↔
        s ∈ [" Vegan", "Dinner", "Vegan", " "].map strStrip ∧ s ≠ "") ∧
      (MobScraper.clean_dietary [" Vegan", "Dinner", "Vegan", " "] = [] →
        MobScraper.dietary_output [" Vegan", "Dinner", "Vegan", " "] "Vegetarian"
          = (if ("Vegetarian" : String) = "" then "None" else "Vegetarian")) ∧
      (MobScraper.clean_dietary [" Vegan", "Dinner", "Vegan", " "] ≠ [] →
        MobScraper.dietary_output [" Vegan", "Dinner", "Vegan", " "] "Vegetarian"
          = String.intercalate ", "
              (MobScraper.clean_dietary [" Vegan", "Dinner", "Vegan", " "]))) :=
  ⟨by decide, by decide,
    c6_dietary_normalization [" Vegan", "Dinner", "Vegan", " "] "Vegetarian"⟩

/-- Claim C6, counterexample: in the individual scraper a `recipeCategory`
tag keeps its surrounding whitespace — the resolved Dietary Requirements
value is `" Vegan"`, not the trimmed value `"Vegan"` the claim describes. -/
def c6hero : IndividualRecipeScraper.HeroFields :=
  { title := "T6", description := "", time := "", chefName := "", chefImage := "",
    image := "/x6.jpg" }

def c6ld : LdObject :=
  { LdObject.empty with
      type := some "Recipe", recipeCategory := some (JVal.strList [" Vegan"]) }

theorem c6_counterexample :
    (IndividualRecipeScraper.scrape_recipe c6hero [c6ld] "").map
        (fun r => r.DietaryRequirements) = some " Vegan" ∧
    spec_dietary_value [" Vegan"] "" = "Vegan" ∧
    (" Vegan" : String) ≠ "Vegan" :=
  ⟨by decide, by decide, by decide⟩

/-- The replacement function of `save_to_csv` preserves each row's Title. -/
theorem save_replace_title (r row : RecipeRecord) :
    (if row.Title == r.Title then r else row).Title = row.Title := by
  by_cases h : row.Title = r.Title
  · simp [h]
  · simp [h]

/-- The replacement function of `save_to_csv` is pointwise idempotent. -/
theorem save_replace_idem (r row : RecipeRecord) :
    (if (if row.Title == r.Title then r else row).Title == r.Title then r
      else (if row.Title == r.Title then r else row))
      = (if row.Title == r.Title then r else row) := by
  by_cases h : row.Title = r.Title
  · simp [h]
  · simp [h]

/-- Claim C2, amended: on a store whose rows carry pairwise distinct titles
(the only stores the pipeline itself produces through `save_to_csv`),
upserting a record twice leaves exactly one row for its title with field
values identical to the record, the second call is a no-op, and at most one
row per distinct title remains. On a store that already holds duplicate
titles (which batch-append mode can create), a single upsert replaces every
matching row, so duplicates survive (`c2_counterexample`). -/
theorem c2_upsert_idempotent (rows : List RecipeRecord) (r : RecipeRecord)
    (h : (rows.map (fun row => row.Title)).Nodup) :
    IndividualRecipeScraper.save_to_csv r (IndividualRecipeScraper.save_to_csv r rows)
      = IndividualRecipeScraper.save_to_csv r rows ∧
    ((IndividualRecipeScraper.save_to_csv r rows).map (fun row => row.Title)).Nodup ∧
    ((IndividualRecipeScraper.save_to_csv r rows).map (fun row => row.Title)).count r.Title
      = 1 ∧
    (∀ row ∈ IndividualRecipeScraper.save_to_csv r rows, row.Title = r.Title → row = r) := by
  have htitles : ∀ (l : List RecipeRecord),
      (l.map (fun row => if row.Title == r.Title then r else row)).map
          (fun row => row.Title)
        = l.map (fun row => row.Title) := by
    intro l
    rw [List.map_map]
    apply List.map_congr_left
    intro row _
    exact save_replace_title r row
  by_cases hany : (rows.any fun row => row.Title == r.Title) = true
  · have hs1 : IndividualRecipeScraper.save_to_csv r rows
        = rows.map (fun row => if row.Title == r.Title then r else row) := by
      simp only [IndividualRecipeScraper.save_to_csv]
      rw [if_pos hany]
    obtain ⟨row0, hrow0, hbeq0⟩ := List.any_eq_true.mp hany
    have htitle0 : row0.Title = r.Title := by simpa using hbeq0
    have hmemT : r.Title ∈ rows.map (fun row => row.Title) :=
      List.mem_map.mpr ⟨row0, hrow0, htitle0⟩
    refine ⟨?_, ?_, ?_, ?_⟩
    · rw [hs1]
      have hany2 : ((rows.map (fun row => if row.Title == r.Title then r else row)).any
          fun row => row.Title == r.Title) = true := by
        apply List.any_eq_true.mpr
        refine ⟨if row0.Title == r.Title then r else row0, List.mem_map_of_mem _ hrow0, ?_⟩
        rw [save_replace_title]
        simpa using htitle0
      have hs2 : IndividualRecipeScraper.save_to_csv r
          (rows.map (fun row => if row.Title == r.Title then r else row))
          = (rows.map (fun row => if row.Title == r.Title then r else row)).map
              (fun row => if row.Title == r.Title then r else row) := by
        simp only [IndividualRecipeScraper.save_to_csv]
        rw [if_pos hany2]
      rw [hs2, List.map_map]
      apply List.map_congr_left
      intro row _
      simp only [Function.comp_apply]
      exact save_replace_idem r row
    · rw [hs1, htitles]
      exact h
    · rw [hs1, htitles]
      have hle := List.nodup_iff_count_le_one.mp h r.Title
      have hge : 0 < (rows.map (fun row => row.Title)).count r.Title :=
        List.count_pos_iff.mpr hmemT
      omega
    · intro row hrow htit
      rw [hs1] at hrow
      obtain ⟨x, hx, hfx⟩ := List.mem_map.mp hrow
      by_cases hxt : x.Title = r.Title
      · rw [← hfx]
        simp [hxt]
      · have hfx2 : (if x.Title == r.Title then r else x) = x := by simp [hxt]
        rw [hfx2] at hfx
        subst hfx
        exact absurd htit hxt
  · have hanyf : (rows.any fun row => row.Title == r.Title) = false :=
      Bool.not_eq_true _ ▸ eq_false_of_ne_true hany
    have hnomatch : ∀ row ∈ rows, row.Title ≠ r.Title := by
      intro row hrow heq
      have htrue : (rows.any fun row => row.Title == r.Title) = true :=
        List.any_eq_true.mpr ⟨row, hrow, by simpa using heq⟩
      rw [hanyf] at htrue
      exact Bool.noConfusion htrue
    have hid : rows.map (fun row => if row.Title == r.Title then r else row) = rows := by
      conv_rhs => rw [← List.map_id rows]
      apply List.map_congr_left
      intro row hrow
      simp [hnomatch row hrow]
    have hs1 : IndividualRecipeScraper.save_to_csv r rows = rows ++ [r] := by
      simp only [IndividualRecipeScraper.save_to_csv]
      rw [if_neg hany, hid]
    have hmemTf : r.Title ∉ rows.map (fun row => row.Title) := by
      intro hmem
      obtain ⟨row, hrow, ht⟩ := List.mem_map.mp hmem
      exact hnomatch row hrow ht
    refine ⟨?_, ?_, ?_, ?_⟩
    · rw [hs1]
      have hany2 : ((rows ++ [r]).any fun row => row.Title == r.Title) = true :=
        List.any_eq_true.mpr ⟨r, by simp, by simp⟩
      have hs2 : IndividualRecipeScraper.save_to_csv r (rows ++ [r])
          = (rows ++ [r]).map (fun row => if row.Title == r.Title then r else row) := by
        simp only [IndividualRecipeScraper.save_to_csv]
        rw [if_pos hany2]
      rw [hs2, List.map_append, hid]
      simp
    · rw [hs1, List.map_append, List.nodup_append]
      refine ⟨h, by simp, ?_⟩
      intro a ha hb
      simp only [List.map_cons, List.map_nil, List.mem_singleton] at hb
      subst hb
      exact hmemTf ha
    · rw [hs1, List.map_append, List.count_append]
      have h0 : (rows.map (fun row => row.Title)).count r.Title = 0 :=
        List.count_eq_zero.mpr hmemTf
      simp [h0]
    · intro row hrow htit
      rw [hs1] at hrow
      rcases List.mem_append.mp hrow with hin | hin
      · exact absurd htit (hnomatch row hin)
      · simpa using hin

/-- Witness for `c2_upsert_idempotent` on a one-row duplicate-free store. -/
def c2wrow : RecipeRecord :=
  { Image := "i", Title := "B", Time := "", ChefName := "", ChefImage := "",
    Description := "", DietaryRequirements := "None" }

def c2wrec : RecipeRecord :=
  { Image := "j", Title := "A", Time := "", ChefName := "c", ChefImage := "",
    Description := "", DietaryRequirements := "None" }

theorem c2_upsert_idempotent_witness :
    ([c2wrow].map (fun row => row.Title)).Nodup ∧
    (IndividualRecipeScraper.save_to_csv c2wrec
        (IndividualRecipeScraper.save_to_csv c2wrec [c2wrow])
      = IndividualRecipeScraper.save_to_csv c2wrec [c2wrow] ∧
    ((IndividualRecipeScraper.save_to_csv c2wrec [c2wrow]).map
        (fun row => row.Title)).Nodup ∧
    ((IndividualRecipeScraper.save_to_csv c2wrec [c2wrow]).map
        (fun row => row.Title)).count c2wrec.Title = 1 ∧
    (∀ row ∈ IndividualRecipeScraper.save_to_csv c2wrec [c2wrow],
      row.Title = c2wrec.Title → row = c2wrec)) :=
  ⟨by decide, c2_upsert_idempotent [c2wrow] c2wrec (by decide)⟩

/-- Claim C2, counterexample: on a store that already holds two rows titled
`"A"` (batch-append mode can produce such stores), one upsert of a record
titled `"A"` leaves two rows with that title, and so does a second upsert —
neither "at most one row per distinct title after any single call" nor
"exactly one row after calling twice" holds for every store state. -/
def c2row : RecipeRecord :=
  { Image := "", Title := "A", Time := "", ChefName := "", ChefImage := "",
    Description := "", DietaryRequirements := "" }

theorem c2_counterexample :
    ((IndividualRecipeScraper.save_to_csv c2row [c2row, c2row]).map
        (fun row => row.Title)).count "A" = 2 ∧
    ((IndividualRecipeScraper.save_to_csv c2row
          (IndividualRecipeScraper.save_to_csv c2row [c2row, c2row])).map
        (fun row => row.Title)).count "A" = 2 :=
  ⟨by decide, by decide⟩

end RecipePopulator
